import Mathlib

/-!
Verification of the per-host crawl worker of `gocrawl` (`src/worker.go`).

The worker is shallowly embedded: every function of `src/worker.go` becomes a
Lean function of the same name over an explicit worker state.  Time is a
logical clock (`Nat`): a fetch advances the clock by the duration the
transport oracle assigns to it, `time.After d` called at time `t` yields a
timer with absolute deadline `t + d`, and receiving from a timer advances the
clock to at least its deadline.  Durations produced by `time.Time.Sub` are
`Int` (Go durations are signed).  The pluggable `Extender` callbacks and the
external collaborators (`robotstxt` parsing, HTML parsing, the `net/url`
parser) are oracles supplied as data, and every observable interaction
(results pushed to the coordinator, errors reported, fetches performed, hook
notifications) is recorded in the state so that theorems can speak about it.
-/

set_option maxHeartbeats 1600000

namespace gocrawl

/-- A parsed URL as the worker uses `net/url.URL`: scheme, host (authority),
path and fragment.  Query and user info are folded into the path; the worker
only inspects `Path`, resolves references, and compares whole URLs. -/
structure URL where
  scheme : String
  host : String
  path : String
  fragment : String
deriving DecidableEq, Repr

/-- One work item (`command` in the repository): a target URL and whether the
fetch negotiation starts with a HEAD request. -/
structure Command where
  u : URL
  head : Bool
deriving DecidableEq, Repr

/-- The message `sendResponse` pushes to the coordinator
(`workerResponse{host, visited, u, harvested, idleDeath}`). -/
structure workerResponse where
  host : String
  visited : Bool
  url : Option URL
  harvested : List URL
  idleDeath : Bool
deriving DecidableEq, Repr

/-- Telemetry of the last underlying fetch (`FetchInfo`): the value stored for
`duration` is exactly what the code computes, `now.Sub(time.Now())`, as a
signed integer. -/
structure FetchInfo where
  duration : Int
  statusCode : Nat
  headRequest : Bool
  isRobots : Bool
deriving DecidableEq, Repr

/-- The triple handed to the external delay hook (`DelayInfo`). -/
structure DelayInfo where
  optsDelay : Nat
  robotsDelay : Nat
  lastDelay : Nat
deriving DecidableEq, Repr

/-- Modelled from the spec: the fixed error kinds of section 7 (`CrawlError`
kind constants of the repository, whose defining file is not under `src/`). -/
inductive CrawlErrorKind
  | CekFetch
  | CekParseRobots
  | CekHttpStatusCode
  | CekReadBody
  | CekParseBody
  | CekProcessLinks
deriving DecidableEq, Repr

/-- Modelled from the spec: a tagged error value carrying a kind, an optional
message or underlying cause, and the URL involved (`newCrawlError` /
`newCrawlErrorMessage` are not under `src/`). -/
structure CrawlError where
  kind : CrawlErrorKind
  msg : Option String
  url : Option URL
deriving DecidableEq, Repr

/-- A compiled robots.txt group (`robotstxt.Group`, an external collaborator):
a path predicate and a crawl delay. -/
structure Group where
  test : String → Bool
  crawlDelay : Nat

/-- Parsed robots.txt data (`robotstxt.RobotsData`, external): the worker only
calls `FindGroup` with its robots user agent. -/
structure RobotsData where
  findGroup : String → Option Group

/-- A parsed HTML document as the worker uses it (`goquery.Document`): its
base URL and the `href` attribute of every anchor, in document order
(`doc.Find("a[href]")`). -/
structure Document where
  url : URL
  hrefs : List String

/-- An HTTP response.  `body` is what reading the body to the end yields: the
bytes, or a read error (`ioutil.ReadAll`).  `requestURL` is `res.Request.URL`. -/
structure Response where
  statusCode : Nat
  status : String
  body : Except String String
  requestURL : URL

/-- The outcome the transport oracle assigns to one fetch call: how long the
call blocks, and its result. -/
structure FetchOutcome where
  dur : Nat
  result : Except String Response

/-- The `Extender` capability set, restricted to the operations `worker.go`
invokes.  `Visited`, `Disallowed` and `FetchedRobots` are notifications whose
invocations the worker state records. -/
structure Extender where
  fetch : URL → String → Bool → FetchOutcome
  requestRobots : URL → String → Bool × String
  requestGet : Response → Bool
  visit : Response → Option Document → List URL × Bool
  computeDelay : String → DelayInfo → Option FetchInfo → Nat

/-- The external collaborators excluded by the spec: `robotstxt.FromBytes` and
HTML parsing (`exp/html.Parse` followed by goquery's `a[href]` query; the
payload of a successful parse is the anchor href list in document order). -/
structure Externals where
  parseRobots : String → Except String RobotsData
  parseHtml : String → Except String (List String)

/-- The worker's identity, tuning and capabilities (the immutable fields of
`worker`). -/
structure worker where
  host : String
  index : Nat
  userAgent : String
  robotUserAgent : String
  crawlDelay : Nat
  idleTTL : Nat
  extender : Extender
  externals : Externals

/-- The record the state keeps of one underlying fetch call: its URL, agent
and HEAD flag, when it started and ended on the logical clock, how long it
took, the crawl delay in force at that moment (`this.lastCrawlDelay` as
computed by `setCrawlDelay` just before the fetch), whether it succeeded, and
the absolute deadline of the `this.wait` timer the fetch scheduled (`none`
when the fetch failed, since the code only schedules on success). -/
structure FetchRec where
  url : URL
  agent : String
  headRequest : Bool
  start : Nat
  dur : Nat
  endTime : Nat
  delay : Nat
  ok : Bool
  sched : Option Nat
deriving DecidableEq, Repr

/-- The worker's mutable state plus the observable trace: the mutable fields
of `worker`, the logical clock, and logs of everything the worker emits. -/
structure WState where
  robotsGroup : Option Group
  lastFetch : Option FetchInfo
  lastCrawlDelay : Nat
  wait : Option Nat
  now : Nat
  pushed : List workerResponse
  errors : List CrawlError
  fetchLog : List FetchRec
  visitCalls : List Bool
  visitedCalls : List (URL × List URL)
  disallowedCalls : List URL
  fetchedRobotsCalls : Nat
  ignoredLog : List String

/-- The state of a freshly created worker: no robots policy, no telemetry,
zero last delay, no pending wait, empty trace. -/
def initState : WState :=
  { robotsGroup := none
    lastFetch := none
    lastCrawlDelay := 0
    wait := none
    now := 0
    pushed := []
    errors := []
    fetchLog := []
    visitCalls := []
    visitedCalls := []
    disallowedCalls := []
    fetchedRobotsCalls := 0
    ignoredLog := [] }

/-- Modelled from the spec: the repository's `isRobotsTxtUrl` helper is not
under `src/`.  Per the spec the synthetic robots.txt command targets the
host's `/robots.txt` path, and the idle-timeout result, which carries no URL,
is pushed by `sendResponse`, so a missing URL is not the robots.txt URL. -/
def isRobotsTxtUrl : Option URL → Bool
  | none => false
  | some u => String.mk (u.path.toList.map Char.toLower) == "/robots.txt"

/-- `worker.sendResponse`: push a `workerResponse` to the coordinator, unless
the URL is the robots.txt URL. -/
def sendResponse (w : worker) (st : WState) (u : Option URL) (visited : Bool)
    (harvested : List URL) (idleDeath : Bool) : WState :=
  if isRobotsTxtUrl u then st
  else { st with pushed := st.pushed ++ [⟨w.host, visited, u, harvested, idleDeath⟩] }

/-- Report a `CrawlError` through the error hook (`this.extender.Error`). -/
def reportError (st : WState) (e : CrawlError) : WState :=
  { st with errors := st.errors ++ [e] }

/-- `worker.isAllowedPerRobotsPolicies`: test the URL's path against the
current group; no robots.txt means everything is allowed. -/
def isAllowedPerRobotsPolicies (st : WState) (u : URL) : Bool :=
  match st.robotsGroup with
  | some g => g.test u.path
  | none => true

/-- `worker.setCrawlDelay`: combine the configured delay, the robots group's
crawl delay and the last applied delay through the external hook, together
with the last fetch telemetry. -/
def setCrawlDelay (w : worker) (st : WState) : WState :=
  let robDelay : Nat :=
    match st.robotsGroup with
    | some g => g.crawlDelay
    | none => 0
  { st with lastCrawlDelay :=
      w.extender.computeDelay w.host ⟨w.crawlDelay, robDelay, st.lastCrawlDelay⟩ st.lastFetch }

/-- The head of `worker.fetchUrl`'s loop body: receive from `this.wait` if a
timer is pending (advancing the clock to its deadline) and clear it. -/
def consumeWait (st : WState) : WState :=
  match st.wait with
  | some d => { st with now := max st.now d, wait := none }
  | none => st

/-- One iteration of `worker.fetchUrl`'s loop up to the point where the HEAD
decision is taken: wait out a pending crawl delay, recompute the delay, fetch.
On transport failure: clear the telemetry, report a `CekFetch` error, send a
`visited=false` response and give up (`return nil, false`).  On success:
schedule `this.wait` for `lastCrawlDelay` from now (the fetch has just
returned) and overwrite the telemetry with
`FetchInfo{now.Sub(time.Now()), res.StatusCode, headRequest, isRobotsTxtUrl(u)}`. -/
def fetchOnce (w : worker) (st : WState) (u : URL) (agent : String)
    (headRequest : Bool) : WState × Option Response :=
  let st1 := consumeWait st
  let st2 := setCrawlDelay w st1
  let start := st2.now
  let out := w.extender.fetch u agent headRequest
  let endT := start + out.dur
  match out.result with
  | .error e =>
      let st3 := { st2 with now := endT, lastFetch := none }
      let st4 := reportError st3 ⟨.CekFetch, some e, some u⟩
      let st5 := sendResponse w st4 (some u) false [] false
      let st6 := { st5 with fetchLog := st5.fetchLog ++
        [⟨u, agent, headRequest, start, out.dur, endT, st2.lastCrawlDelay, false, none⟩] }
      (st6, none)
  | .ok res =>
      let st3 := { st2 with
        now := endT
        wait := some (endT + st2.lastCrawlDelay)
        lastFetch := some ⟨(start : Int) - (endT : Int), res.statusCode, headRequest,
          isRobotsTxtUrl (some u)⟩
        fetchLog := st2.fetchLog ++
          [⟨u, agent, headRequest, start, out.dur, endT, st2.lastCrawlDelay, true,
            some (endT + st2.lastCrawlDelay)⟩] }
      (st3, some res)

/-- `worker.fetchUrl`: the two-phase HEAD→GET negotiation.  The loop runs at
most twice: after a successful HEAD the body is released and the `RequestGet`
hook decides whether the GET iteration runs; declining yields `ok = false`
(`none` here). -/
def fetchUrl (w : worker) (st : WState) (u : URL) (agent : String)
    (headRequest : Bool) : WState × Option Response :=
  match fetchOnce w st u agent headRequest with
  | (st1, none) => (st1, none)
  | (st1, some res) =>
      if headRequest then
        if w.extender.requestGet res then
          fetchOnce w st1 u agent false
        else (st1, none)
      else (st1, some res)

/-- `worker.getRobotsTxtGroup`: with a response, read its body (notifying
`FetchedRobots` either way) and parse; with cached bytes, parse directly.  Any
failure is reported as `CekParseRobots` (with a nil URL, as in the source) and
yields no group, which means allow-everything. -/
def getRobotsTxtGroup (w : worker) (st : WState) (b : String)
    (res : Option Response) : WState × Option Group :=
  match res with
  | some r =>
      let st1 := { st with fetchedRobotsCalls := st.fetchedRobotsCalls + 1 }
      match r.body with
      | .error e => (reportError st1 ⟨.CekParseRobots, some e, none⟩, none)
      | .ok bs =>
          match w.externals.parseRobots bs with
          | .error e => (reportError st1 ⟨.CekParseRobots, some e, none⟩, none)
          | .ok data => (st1, data.findGroup w.robotUserAgent)
  | none =>
      match w.externals.parseRobots b with
      | .error e => (reportError st ⟨.CekParseRobots, some e, none⟩, none)
      | .ok data => (st, data.findGroup w.robotUserAgent)

/-- `worker.requestRobotsTxt`: ask the `RequestRobots` hook; either parse the
cached bytes, or fetch with the robots user agent (never as HEAD), start the
crawl-delay timer, parse, and wait the delay out.  The resulting group
replaces the worker's policy wholesale. -/
def requestRobotsTxt (w : worker) (st : WState) (u : URL) : WState :=
  match w.extender.requestRobots u w.robotUserAgent with
  | (false, robData) =>
      let p := getRobotsTxtGroup w st robData none
      { p.1 with robotsGroup := p.2 }
  | (true, _) =>
      match fetchUrl w st u w.robotUserAgent false with
      | (st1, none) => st1
      | (st1, some res) =>
          let waitDeadline := st1.now + st1.lastCrawlDelay
          let p := getRobotsTxtGroup w st1 "" (some res)
          let st2 := { p.1 with robotsGroup := p.2 }
          { st2 with now := max st2.now waitDeadline }

/-- Whether the first list is an initial segment of the second
(`strings.HasPrefix` over character lists, structural so terms evaluate). -/
def listHasPrefix : List Char → List Char → Bool
  | [], _ => true
  | _ :: _, [] => false
  | a :: pre, b :: l => a == b && listHasPrefix pre l

/-- `strings.HasPrefix`. -/
def strHasPrefix (s p : String) : Bool := listHasPrefix p.toList s.toList

/-- The characters before the first occurrence of `c`, and those after it
(`none` when `c` does not occur). -/
def splitAtChar (c : Char) : List Char → List Char × Option (List Char)
  | [] => ([], none)
  | a :: as =>
      if a == c then ([], some as)
      else
        let p := splitAtChar c as
        (a :: p.1, p.2)

/-- The characters before and after the first occurrence of the pattern. -/
def splitSeq (pat : List Char) : List Char → Option (List Char × List Char)
  | [] => none
  | c :: cs =>
      if listHasPrefix pat (c :: cs) then some ([], (c :: cs).drop pat.length)
      else
        match splitSeq pat cs with
        | some p => some (c :: p.1, p.2)
        | none => none

/-- Split a URL string into its pre-fragment core and its fragment (cut at
the first `#`). -/
def splitFragment (s : String) : String × String :=
  let p := splitAtChar '#' s.toList
  (String.mk p.1, String.mk (p.2.getD []))

/-- Split an authority-plus-path into the authority (up to the first `/`) and
the path (from the first `/`). -/
def takeUntilSlash : List Char → List Char × List Char
  | [] => ([], [])
  | c :: cs =>
      if c = '/' then ([], c :: cs)
      else
        let p := takeUntilSlash cs
        (c :: p.1, p.2)

/-- The scheme of an absolute URL and what follows `://`, if the core has one
(an empty scheme is Go's `missing protocol scheme` error). -/
def splitScheme (s : String) : Option (String × String) :=
  match splitSeq "://".toList s.toList with
  | none => none
  | some p => if p.1 = [] then none else some (String.mk p.1, String.mk p.2)

/-- Modelled from the documented behavior of Go's `net/url` parser, which the
worker calls on href values (an external collaborator): split the fragment at
the first `#`; a core containing `://` with a nonempty scheme is absolute
(host up to the first `/`, path from it); anything else is a reference
carrying only a path.  Parsing fails on ASCII control characters, which Go
rejects (`invalid control character in URL`).  Queries fold into the path and
dot-segment removal is omitted; the worker relies on neither. -/
def urlParse (s : String) : Option URL :=
  if s.toList.any (fun c => c.toNat < 32 || c.toNat == 127) then none
  else
    let core := (splitFragment s).1
    let frag := (splitFragment s).2
    match splitScheme core with
    | some p =>
        let hp := takeUntilSlash p.2.toList
        some ⟨p.1, String.mk hp.1, String.mk hp.2, frag⟩
    | none => some ⟨"", "", core, frag⟩

/-- The base path's directory: everything up to and including its last `/`. -/
def dirOf (p : List Char) : List Char :=
  (p.reverse.dropWhile (fun c => c != '/')).reverse

/-- Merge a relative path onto the directory of the base path (RFC 3986
section 5.3.3, without dot-segment removal). -/
def mergePaths (bp rp : String) : String :=
  let d := dirOf bp.toList
  if d = [] then "/" ++ rp else String.mk d ++ rp

/-- Modelled from the documented behavior of Go's `(*url.URL).ResolveReference`
(RFC 3986 section 5.3), restricted as `urlParse` is: an absolute reference
wins; a protocol-relative reference takes the base's scheme; an empty path
keeps the base's path; a rooted path replaces it; a relative path merges onto
the base path's directory. -/
def resolveReference (base ref : URL) : URL :=
  if ref.scheme ≠ "" then ref
  else if ref.host ≠ "" then { ref with scheme := base.scheme }
  else if ref.path = "" then { base with fragment := ref.fragment }
  else if strHasPrefix ref.path "/" then ⟨base.scheme, base.host, ref.path, ref.fragment⟩
  else ⟨base.scheme, base.host, mergePaths base.path ref.path, ref.fragment⟩

/-- The loop body of `worker.processLinks` over the anchor href values:
`(harvested, ignored)` where `ignored` holds the unparsable values the code
logs with `LogIgnored` (they are never reported as errors).  An empty value
or one starting with `#` is skipped silently. -/
def processLinksAux (base : URL) : List String → List URL × List String
  | [] => ([], [])
  | s :: rest =>
      let p := processLinksAux base rest
      if s.length > 0 && !(strHasPrefix s "#") then
        match urlParse s with
        | some parsed => (resolveReference base parsed :: p.1, p.2)
        | none => (p.1, s :: p.2)
      else p

/-- `worker.processLinks`: scrape every anchor's href and resolve it against
the document's base URL. -/
def processLinks (doc : Document) : List URL × List String :=
  processLinksAux doc.url doc.hrefs

/-- `worker.visitUrl`: read the body (a failure is `CekReadBody`), parse it
(a failure is `CekParseBody`); either way call the `Visit` hook, with no
document on failure.  If the hook asks for automatic link processing, harvest
from the document, or report `CekProcessLinks` when there is none.  Finally
notify `Visited`. -/
def visitUrl (w : worker) (st : WState) (res : Response) : WState × List URL :=
  let pd : WState × Option Document :=
    match res.body with
    | .error e =>
        (reportError st ⟨.CekReadBody, some e, some res.requestURL⟩, none)
    | .ok bd =>
        match w.externals.parseHtml bd with
        | .error e => (reportError st ⟨.CekParseBody, some e, some res.requestURL⟩, none)
        | .ok hrefs => (st, some ⟨res.requestURL, hrefs⟩)
  let st1 := pd.1
  let doc := pd.2
  let v := w.extender.visit res doc
  let ph : WState × List URL :=
    if v.2 then
      match doc with
      | some d =>
          let links := processLinks d
          ({ st1 with ignoredLog := st1.ignoredLog ++ links.2 }, links.1)
      | none =>
          (reportError st1
            ⟨.CekProcessLinks, some "No goquery document to process links.",
              some res.requestURL⟩, v.1)
    else (st1, v.1)
  let st2 := { ph.1 with
    visitCalls := ph.1.visitCalls ++ [doc.isSome]
    visitedCalls := ph.1.visitedCalls ++ [(res.requestURL, ph.2)] }
  (st2, ph.2)

/-- `worker.requestUrl`: negotiate the fetch; on success start the
crawl-delay timer, classify the status (2xx visits, anything else reports
`CekHttpStatusCode` carrying `res.Status`), send the response, and wait the
delay out. -/
def requestUrl (w : worker) (st : WState) (u : URL) (headRequest : Bool) : WState :=
  match fetchUrl w st u w.userAgent headRequest with
  | (st1, none) => st1
  | (st1, some res) =>
      let waitDeadline := st1.now + st1.lastCrawlDelay
      let vh : WState × List URL × Bool :=
        if 200 ≤ res.statusCode ∧ res.statusCode < 300 then
          let p := visitUrl w st1 res
          (p.1, p.2, true)
        else
          (reportError st1 ⟨.CekHttpStatusCode, some res.status, some u⟩, [], false)
      let st3 := sendResponse w vh.1 (some u) vh.2.2 vh.2.1 false
      { st3 with now := max st3.now waitDeadline }

/-- One iteration of the batch loop in `worker.run`: the robots.txt command
runs the acquisition protocol; a URL the policy allows is fetched and
visited; a disallowed one is notified and answered with `visited=false`. -/
def processCommand (w : worker) (st : WState) (cmd : Command) : WState :=
  if isRobotsTxtUrl (some cmd.u) then
    requestRobotsTxt w st cmd.u
  else if isAllowedPerRobotsPolicies st cmd.u then
    requestUrl w st cmd.u cmd.head
  else
    let st1 := { st with disallowedCalls := st.disallowedCalls ++ [cmd.u] }
    sendResponse w st1 (some cmd.u) false [] false

/-- The batch loop of `worker.run` with the non-blocking stop check after
each command: `flags` says, per command, whether the stop signal is set when
the check runs.  Returns the state and whether the loop stopped mid-batch. -/
def processBatch (w : worker) : WState → List Command → List Bool → WState × Bool
  | st, [], _ => (st, false)
  | st, c :: cs, flags =>
      let st1 := processCommand w st c
      if flags.headD false then (st1, true)
      else processBatch w st1 cs flags.tail

/-- Which of `run`'s select branches can proceed at one wait point.  The idle
branch exists only when `idleTTL > 0` (otherwise `idleChan` is nil and its
case can never proceed). -/
inductive SelBranch
  | stop
  | idle
  | batch
deriving DecidableEq, Repr

/-- The environment at one pass of `run`'s select: which events are ready,
the batch if one is deliverable, the scheduler's pick among the ready
branches (Go's select chooses among ready cases by uniform pseudo-random
selection, so the pick is an oracle), and the stop-flag stream for the
non-blocking per-command checks of the batch branch. -/
structure SelectStep where
  stopReady : Bool
  idleFired : Bool
  batch : Option (List Command)
  choice : Nat
  cmdStops : List Bool

/-- The select cases that can proceed, in source order. -/
def readyBranches (w : worker) (s : SelectStep) : List SelBranch :=
  (if s.stopReady then [SelBranch.stop] else []) ++
    ((if w.idleTTL > 0 && s.idleFired then [SelBranch.idle] else []) ++
      (if s.batch.isSome then [SelBranch.batch] else []))

/-- Go's select over `run`'s three cases: of the ready cases one is chosen by
the scheduler oracle; with none ready the select blocks (`none`). -/
def resolveSelect (w : worker) (s : SelectStep) : Option SelBranch :=
  let rb := readyBranches w s
  rb[s.choice % rb.length]?

/-- `worker.run` driven by an environment script, one `SelectStep` per pass
through the wait loop: stop returns with no response; idle timeout sends the
`idleDeath` response and returns; a batch is processed and, unless a stop was
seen mid-batch, the loop re-enters the wait state. -/
def run (w : worker) : WState → List SelectStep → WState
  | st, [] => st
  | st, s :: rest =>
      match resolveSelect w s with
      | none => run w st rest
      | some SelBranch.stop => st
      | some SelBranch.idle => sendResponse w st none false [] true
      | some SelBranch.batch =>
          let p := processBatch w st (s.batch.getD []) s.cmdStops
          if p.2 then p.1 else run w p.1 rest

/-- Whether a command takes the documented HEAD-declined-GET path: it asks
for a HEAD, the HEAD fetch succeeds, and the `RequestGet` hook declines.
The oracles are functions, so this is determined by the command alone. -/
def headDeclined (w : worker) (u : URL) (head : Bool) : Bool :=
  head &&
    (match (w.extender.fetch u w.userAgent true).result with
      | .ok res => !(w.extender.requestGet res)
      | .error _ => false)

/-- How many `workerResponse`s one command hands to the coordinator: none for
the synthetic robots.txt command, none on the HEAD-declined-GET path, and
exactly one otherwise. -/
def responsesOf (w : worker) (st : WState) (cmd : Command) : Nat :=
  if isRobotsTxtUrl (some cmd.u) then 0
  else if isAllowedPerRobotsPolicies st cmd.u && headDeclined w cmd.u cmd.head then 0
  else 1

/-- Whether the robots.txt bytes that `getRobotsTxtGroup b res` will parse are
unparsable: the cached bytes `b` when there is no response, the response's
body bytes when there is one (a body read error is a different failure). -/
def robotsUnparsable (w : worker) (b : String) (res : Option Response) : Bool :=
  match res with
  | none =>
      match w.externals.parseRobots b with
      | .error _ => true
      | .ok _ => false
  | some r =>
      match r.body with
      | .error _ => false
      | .ok bs =>
          match w.externals.parseRobots bs with
          | .error _ => true
          | .ok _ => false

/-- A well-formed fetch record: the end time is start plus duration, and the
scheduled `this.wait` deadline is exactly the fetch's completion time plus
the delay computed for it — present exactly when the fetch succeeded. -/
def recGood (r : FetchRec) : Prop :=
  r.endTime = r.start + r.dur ∧
    (r.ok = true → r.sched = some (r.endTime + r.delay)) ∧
    (r.ok = false → r.sched = none)

/-- Consecutive fetches are spaced by the crawl delay: after a successful
fetch, the next underlying fetch starts no earlier than the previous fetch's
completion plus the delay scheduled for it (hence no earlier than the
previous fetch's start plus that delay). -/
def wellSpaced : List FetchRec → Prop
  | a :: b :: rest =>
      (a.ok = true → a.endTime + a.delay ≤ b.start ∧ a.start + a.delay ≤ b.start) ∧
        wellSpaced (b :: rest)
  | _ => True

/-- The pending `this.wait` timer agrees with the fetch log: after a
successful fetch the timer holds that fetch's deadline until the next fetch
consumes it; after a failed fetch (or before any) no timer is pending. -/
def waitInv (st : WState) : Prop :=
  match st.fetchLog.getLast? with
  | none => st.wait = none
  | some r =>
      (r.ok = true ∧ st.wait = some (r.endTime + r.delay)) ∨
        (r.ok = false ∧ st.wait = none)

/-- The delay-scheduling invariant of the worker state. -/
def Inv (st : WState) : Prop :=
  (∀ r ∈ st.fetchLog, recGood r) ∧ wellSpaced st.fetchLog ∧ waitInv st

/-- The record one `fetchOnce` call appends to the fetch log: it starts at
the clock value reached after waiting out a pending delay, ends after the
transport's duration for the call, and carries the delay `setCrawlDelay`
computed just before the fetch; the `this.wait` deadline is scheduled only on
success, at completion time plus that delay. -/
def fetchRecOf (w : worker) (st : WState) (u : URL) (a : String) (hd : Bool)
    (ok : Bool) : FetchRec :=
  let start := (consumeWait st).now
  let dur := (w.extender.fetch u a hd).dur
  let d := (setCrawlDelay w (consumeWait st)).lastCrawlDelay
  ⟨u, a, hd, start, dur, start + dur, d, ok,
    if ok then some (start + dur + d) else none⟩

/-! Concrete oracles and workers used to instantiate the theorems. -/

/-- External collaborators where robots.txt never parses and HTML parses to a
document with no anchors. -/
def baseExternals : Externals :=
  ⟨fun _ => .error "unparsable robots", fun _ => .ok []⟩

/-- An extender whose transport always fails, whose robots hook supplies
cached bytes, and whose delay hook returns zero. -/
def baseExtender : Extender :=
  ⟨fun _ _ _ => ⟨0, .error "connection refused"⟩,
    fun _ _ => (false, ""),
    fun _ => true,
    fun _ _ => ([], false),
    fun _ _ _ => 0⟩

/-- A worker for host `h` with the given extender, base crawl delay 1 and no
idle timeout. -/
def mkW (e : Extender) : worker :=
  ⟨"h", 0, "ua", "rua", 1, 0, e, baseExternals⟩

/-- The synthetic robots.txt URL of host `h`. -/
def uRob : URL := ⟨"http", "h", "/robots.txt", ""⟩

/-- An ordinary page URL of host `h`. -/
def uA : URL := ⟨"http", "h", "/a", ""⟩

/-- A successful response with an empty, readable body. -/
def resOK : Response := ⟨200, "200 OK", .ok "", uA⟩

/-- A non-2xx response. -/
def resBad : Response := ⟨404, "404 Not Found", .ok "", uA⟩

/-- A 2xx response whose body cannot be read. -/
def resNoBody : Response := ⟨200, "200 OK", .error "read failure", uA⟩

/-- A worker whose every fetch succeeds with `resOK` after 5 time units and
whose delay hook always returns 2. -/
def okWorker : worker :=
  mkW { baseExtender with
    fetch := fun _ _ _ => ⟨5, .ok resOK⟩
    computeDelay := fun _ _ _ => 2 }

/-- A worker whose every fetch fails at the transport level. -/
def failWorker : worker := mkW baseExtender

/-- A worker whose robots hook asks for a fresh fetch — and whose transport
always fails. -/
def robotsFetchWorker : worker :=
  mkW { baseExtender with requestRobots := fun _ _ => (true, "") }

/-- A worker whose HEAD fetches succeed and whose `RequestGet` hook always
declines. -/
def declineWorker : worker :=
  mkW { baseExtender with
    fetch := fun _ _ _ => ⟨1, .ok resOK⟩
    requestGet := fun _ => false }

/-- A worker whose fetches succeed with an unreadable 2xx body. -/
def noBodyWorker : worker :=
  mkW { baseExtender with fetch := fun _ _ _ => ⟨1, .ok resNoBody⟩ }

/-- A worker whose fetches yield a 404. -/
def badStatusWorker : worker :=
  mkW { baseExtender with fetch := fun _ _ _ => ⟨1, .ok resBad⟩ }

/-- A wait pass where the stop signal and a one-command batch are ready at
the same time and the scheduler picks the second ready case. -/
def stopBatchStep : SelectStep := ⟨true, false, some [⟨uA, false⟩], 1, []⟩

/-- A wait pass where only the stop signal is ready. -/
def stopOnlyStep : SelectStep := ⟨true, false, none, 0, []⟩

/-- A wait pass delivering a two-command batch with no stop in sight. -/
def twoCmdStep : SelectStep := ⟨false, false, some [⟨uA, false⟩, ⟨uA, false⟩], 0, []⟩

/-- The base URL `http://h/p` of the spec's harvesting scenario. -/
def basePg : URL := ⟨"http", "h", "/p", ""⟩

/-! Projection lemmas for the elementary state transformers. -/

theorem consumeWait_pushed (st : WState) : (consumeWait st).pushed = st.pushed := by
  cases h : st.wait <;> simp [consumeWait, h]

theorem consumeWait_errors (st : WState) : (consumeWait st).errors = st.errors := by
  cases h : st.wait <;> simp [consumeWait, h]

theorem consumeWait_fetchLog (st : WState) : (consumeWait st).fetchLog = st.fetchLog := by
  cases h : st.wait <;> simp [consumeWait, h]

theorem consumeWait_visitedCalls (st : WState) :
    (consumeWait st).visitedCalls = st.visitedCalls := by
  cases h : st.wait <;> simp [consumeWait, h]

theorem consumeWait_visitCalls (st : WState) :
    (consumeWait st).visitCalls = st.visitCalls := by
  cases h : st.wait <;> simp [consumeWait, h]

theorem consumeWait_lastFetch (st : WState) : (consumeWait st).lastFetch = st.lastFetch := by
  cases h : st.wait <;> simp [consumeWait, h]

/-- `fetchOnce` returns no response exactly on transport failure. -/
theorem fetchOnce_snd_err {w : worker} {u : URL} {a : String} {hd : Bool} {e : String}
    (st : WState) (hr : (w.extender.fetch u a hd).result = .error e) :
    (fetchOnce w st u a hd).2 = none := by
  simp [fetchOnce, hr]

theorem fetchOnce_snd_ok {w : worker} {u : URL} {a : String} {hd : Bool} {res : Response}
    (st : WState) (hr : (w.extender.fetch u a hd).result = .ok res) :
    (fetchOnce w st u a hd).2 = some res := by
  simp [fetchOnce, hr]

/-- On transport failure `fetchOnce` sends a `visited=false` response for the
URL — which `sendResponse` drops when the URL is the robots.txt one. -/
theorem fetchOnce_pushed_err {w : worker} {u : URL} {a : String} {hd : Bool} {e : String}
    (st : WState) (hr : (w.extender.fetch u a hd).result = .error e) :
    (fetchOnce w st u a hd).1.pushed =
      st.pushed ++
        (if isRobotsTxtUrl (some u) then [] else [⟨w.host, false, some u, [], false⟩]) := by
  cases hw : st.wait <;>
    simp [fetchOnce, consumeWait, hw, hr, sendResponse, reportError, setCrawlDelay] <;>
    split <;> simp

/-- A successful fetch pushes nothing by itself. -/
theorem fetchOnce_pushed_ok {w : worker} {u : URL} {a : String} {hd : Bool} {res : Response}
    (st : WState) (hr : (w.extender.fetch u a hd).result = .ok res) :
    (fetchOnce w st u a hd).1.pushed = st.pushed := by
  cases hw : st.wait <;>
    simp [fetchOnce, consumeWait, hw, hr, setCrawlDelay]

/-- On transport failure the telemetry is cleared. -/
theorem fetchOnce_lastFetch_err {w : worker} {u : URL} {a : String} {hd : Bool} {e : String}
    (st : WState) (hr : (w.extender.fetch u a hd).result = .error e) :
    (fetchOnce w st u a hd).1.lastFetch = none := by
  cases hw : st.wait <;>
    simp [fetchOnce, consumeWait, hw, hr, sendResponse, reportError, setCrawlDelay] <;>
    split <;> simp

/-- On transport failure a `CekFetch` error is reported. -/
theorem fetchOnce_errors_err {w : worker} {u : URL} {a : String} {hd : Bool} {e : String}
    (st : WState) (hr : (w.extender.fetch u a hd).result = .error e) :
    (fetchOnce w st u a hd).1.errors = st.errors ++ [⟨.CekFetch, some e, some u⟩] := by
  cases hw : st.wait <;>
    simp [fetchOnce, consumeWait, hw, hr, sendResponse, reportError, setCrawlDelay] <;>
    split <;> simp

theorem fetchOnce_errors_ok {w : worker} {u : URL} {a : String} {hd : Bool} {res : Response}
    (st : WState) (hr : (w.extender.fetch u a hd).result = .ok res) :
    (fetchOnce w st u a hd).1.errors = st.errors := by
  cases hw : st.wait <;>
    simp [fetchOnce, consumeWait, hw, hr, setCrawlDelay]

/-- Every `fetchOnce` call appends exactly one record to the fetch log, with
the HEAD flag of the request it made. -/
theorem fetchOnce_log_heads (w : worker) (st : WState) (u : URL) (a : String) (hd : Bool) :
    (fetchOnce w st u a hd).1.fetchLog.map FetchRec.headRequest =
      st.fetchLog.map FetchRec.headRequest ++ [hd] := by
  cases hw : st.wait <;> cases hr : (w.extender.fetch u a hd).result <;>
    simp [fetchOnce, consumeWait, hw, hr, sendResponse, reportError, setCrawlDelay] <;>
    split <;> simp

/-! Lemmas about `visitUrl`: it pushes nothing and leaves the fetch log and
the pending timer alone; with an unreadable body it degrades as documented. -/

theorem visitUrl_pushed (w : worker) (st : WState) (res : Response) :
    (visitUrl w st res).1.pushed = st.pushed := by
  cases hb : res.body with
  | error e =>
      simp only [visitUrl, hb]
      split <;> simp [reportError]
  | ok bd =>
      cases hp : w.externals.parseHtml bd <;> simp only [visitUrl, hb, hp] <;>
        split <;> simp [reportError]

theorem visitUrl_fetchLog (w : worker) (st : WState) (res : Response) :
    (visitUrl w st res).1.fetchLog = st.fetchLog := by
  cases hb : res.body with
  | error e =>
      simp only [visitUrl, hb]
      split <;> simp [reportError]
  | ok bd =>
      cases hp : w.externals.parseHtml bd <;> simp only [visitUrl, hb, hp] <;>
        split <;> simp [reportError]

theorem visitUrl_wait (w : worker) (st : WState) (res : Response) :
    (visitUrl w st res).1.wait = st.wait := by
  cases hb : res.body with
  | error e =>
      simp only [visitUrl, hb]
      split <;> simp [reportError]
  | ok bd =>
      cases hp : w.externals.parseHtml bd <;> simp only [visitUrl, hb, hp] <;>
        split <;> simp [reportError]

theorem visitUrl_now (w : worker) (st : WState) (res : Response) :
    (visitUrl w st res).1.now = st.now := by
  cases hb : res.body with
  | error e =>
      simp only [visitUrl, hb]
      split <;> simp [reportError]
  | ok bd =>
      cases hp : w.externals.parseHtml bd <;> simp only [visitUrl, hb, hp] <;>
        split <;> simp [reportError]


/-- With an unreadable body, the `Visit` hook runs on no document, `Visited`
is notified, the harvest is what the hook returned, and the errors grow by
`CekReadBody` (plus `CekProcessLinks` when the hook asked for auto-harvest). -/
theorem visitUrl_noBody {res : Response} {e : String} (w : worker) (st : WState)
    (hb : res.body = .error e) :
    (visitUrl w st res).1.visitCalls = st.visitCalls ++ [false] ∧
      (visitUrl w st res).1.visitedCalls =
        st.visitedCalls ++ [(res.requestURL, (w.extender.visit res none).1)] ∧
      (visitUrl w st res).2 = (w.extender.visit res none).1 ∧
      (visitUrl w st res).1.errors =
        st.errors ++ [⟨.CekReadBody, some e, some res.requestURL⟩] ++
          (if (w.extender.visit res none).2 then
            [⟨.CekProcessLinks, some "No goquery document to process links.",
              some res.requestURL⟩]
          else []) := by
  simp only [visitUrl, hb, reportError]
  split <;> simp

/-! Characterization of `fetchUrl` by the oracles' outcomes. -/

/-- When the first fetch fails at the transport level, `fetchUrl` gives up at
once: no second request happens. -/
theorem fetchUrl_err {w : worker} {u : URL} {a : String} {hd : Bool} {e : String}
    (st : WState) (hr : (w.extender.fetch u a hd).result = .error e) :
    fetchUrl w st u a hd = ((fetchOnce w st u a hd).1, none) := by
  have h2 := fetchOnce_snd_err st hr
  rcases hfo : fetchOnce w st u a hd with ⟨st1, r⟩
  rw [hfo] at h2
  simp at h2
  subst h2
  simp [fetchUrl, hfo]

/-- A command with no HEAD phase returns the first response. -/
theorem fetchUrl_ok_noHead {w : worker} {u : URL} {a : String} {res : Response}
    (st : WState) (hr : (w.extender.fetch u a false).result = .ok res) :
    fetchUrl w st u a false = ((fetchOnce w st u a false).1, some res) := by
  have h2 := fetchOnce_snd_ok st hr
  rcases hfo : fetchOnce w st u a false with ⟨st1, r⟩
  rw [hfo] at h2
  simp at h2
  subst h2
  simp [fetchUrl, hfo]

/-- The documented gap: HEAD succeeded, the `RequestGet` hook declined — the
negotiation ends with no response and no GET request. -/
theorem fetchUrl_head_declined {w : worker} {u : URL} {a : String} {res : Response}
    (st : WState) (hr : (w.extender.fetch u a true).result = .ok res)
    (hg : w.extender.requestGet res = false) :
    fetchUrl w st u a true = ((fetchOnce w st u a true).1, none) := by
  have h2 := fetchOnce_snd_ok st hr
  rcases hfo : fetchOnce w st u a true with ⟨st1, r⟩
  rw [hfo] at h2
  simp at h2
  subst h2
  simp [fetchUrl, hfo, hg]

/-- HEAD succeeded and the hook approved: the GET iteration runs. -/
theorem fetchUrl_head_approved {w : worker} {u : URL} {a : String} {res : Response}
    (st : WState) (hr : (w.extender.fetch u a true).result = .ok res)
    (hg : w.extender.requestGet res = true) :
    fetchUrl w st u a true = fetchOnce w (fetchOnce w st u a true).1 u a false := by
  have h2 := fetchOnce_snd_ok st hr
  rcases hfo : fetchOnce w st u a true with ⟨st1, r⟩
  rw [hfo] at h2
  simp at h2
  subst h2
  simp [fetchUrl, hfo, hg]

/-! Frame lemmas for `getRobotsTxtGroup`. -/

theorem getRobotsTxtGroup_pushed (w : worker) (st : WState) (b : String)
    (res : Option Response) : (getRobotsTxtGroup w st b res).1.pushed = st.pushed := by
  cases res with
  | none => cases hp : w.externals.parseRobots b <;>
      simp [getRobotsTxtGroup, hp, reportError]
  | some r =>
      cases hb : r.body with
      | error e => simp [getRobotsTxtGroup, hb, reportError]
      | ok bs => cases hp : w.externals.parseRobots bs <;>
          simp [getRobotsTxtGroup, hb, hp, reportError]

theorem getRobotsTxtGroup_fetchLog (w : worker) (st : WState) (b : String)
    (res : Option Response) : (getRobotsTxtGroup w st b res).1.fetchLog = st.fetchLog := by
  cases res with
  | none => cases hp : w.externals.parseRobots b <;>
      simp [getRobotsTxtGroup, hp, reportError]
  | some r =>
      cases hb : r.body with
      | error e => simp [getRobotsTxtGroup, hb, reportError]
      | ok bs => cases hp : w.externals.parseRobots bs <;>
          simp [getRobotsTxtGroup, hb, hp, reportError]

theorem getRobotsTxtGroup_wait (w : worker) (st : WState) (b : String)
    (res : Option Response) : (getRobotsTxtGroup w st b res).1.wait = st.wait := by
  cases res with
  | none => cases hp : w.externals.parseRobots b <;>
      simp [getRobotsTxtGroup, hp, reportError]
  | some r =>
      cases hb : r.body with
      | error e => simp [getRobotsTxtGroup, hb, reportError]
      | ok bs => cases hp : w.externals.parseRobots bs <;>
          simp [getRobotsTxtGroup, hb, hp, reportError]

/-! How many responses one command pushes. -/

/-- A command that is not the robots.txt command pushes exactly one response,
except on the HEAD-declined-GET path, which pushes none. -/
theorem requestUrl_pushed_len {u : URL} (w : worker) (st : WState) (hd : Bool)
    (hnr : isRobotsTxtUrl (some u) = false) :
    (requestUrl w st u hd).pushed.length =
      st.pushed.length + (if headDeclined w u hd then 0 else 1) := by
  cases hd with
  | false =>
      cases hr : (w.extender.fetch u w.userAgent false).result with
      | error e =>
          simp only [requestUrl, fetchUrl_err st hr]
          simp [fetchOnce_pushed_err st hr, hnr, headDeclined]
      | ok res =>
          simp only [requestUrl, fetchUrl_ok_noHead st hr]
          split <;>
            simp [sendResponse, hnr, visitUrl_pushed, reportError,
              fetchOnce_pushed_ok st hr, headDeclined]
  | true =>
      cases hr : (w.extender.fetch u w.userAgent true).result with
      | error e =>
          simp only [requestUrl, fetchUrl_err st hr]
          simp [fetchOnce_pushed_err st hr, hnr, headDeclined, hr]
      | ok res =>
          cases hg : w.extender.requestGet res with
          | false =>
              simp only [requestUrl, fetchUrl_head_declined st hr hg]
              simp [fetchOnce_pushed_ok st hr, headDeclined, hr, hg]
          | true =>
              simp only [requestUrl, fetchUrl_head_approved st hr hg]
              cases hr2 : (w.extender.fetch u w.userAgent false).result with
              | error e2 =>
                  have hq := fetchOnce_snd_err (fetchOnce w st u w.userAgent true).1 hr2
                  have hp := fetchOnce_pushed_err (fetchOnce w st u w.userAgent true).1 hr2
                  rcases hfo : fetchOnce w (fetchOnce w st u w.userAgent true).1 u
                      w.userAgent false with ⟨st2, r⟩
                  rw [hfo] at hq hp
                  simp at hq hp
                  subst hq
                  simp [hfo, hp, fetchOnce_pushed_ok st hr, hnr, headDeclined, hr, hg]
              | ok res2 =>
                  have hq := fetchOnce_snd_ok (fetchOnce w st u w.userAgent true).1 hr2
                  have hp := fetchOnce_pushed_ok (fetchOnce w st u w.userAgent true).1 hr2
                  rcases hfo : fetchOnce w (fetchOnce w st u w.userAgent true).1 u
                      w.userAgent false with ⟨st2, r⟩
                  rw [hfo] at hq hp
                  simp at hq hp
                  subst hq
                  dsimp only
                  split <;>
                    simp [hp, sendResponse, hnr, visitUrl_pushed, reportError,
                      fetchOnce_pushed_ok st hr, headDeclined, hr, hg]

/-- The robots-acquisition protocol never pushes a response: `sendResponse`
drops anything whose URL is the robots.txt URL, and the success path sends
nothing at all. -/
theorem requestRobotsTxt_pushed {u : URL} (w : worker) (st : WState)
    (hu : isRobotsTxtUrl (some u) = true) :
    (requestRobotsTxt w st u).pushed = st.pushed := by
  rcases hrr : w.extender.requestRobots u w.robotUserAgent with ⟨req, robData⟩
  cases req with
  | false => simp [requestRobotsTxt, hrr, getRobotsTxtGroup_pushed]
  | true =>
      cases hr : (w.extender.fetch u w.robotUserAgent false).result with
      | error e =>
          simp only [requestRobotsTxt, hrr, fetchUrl_err st hr]
          simp [fetchOnce_pushed_err st hr, hu]
      | ok res =>
          simp only [requestRobotsTxt, hrr, fetchUrl_ok_noHead st hr]
          simp [getRobotsTxtGroup_pushed, fetchOnce_pushed_ok st hr]

/-- `visitUrl` notifies `Visited` exactly once, with the response's URL and
the final harvest. -/
theorem visitUrl_visitedCalls (w : worker) (st : WState) (res : Response) :
    (visitUrl w st res).1.visitedCalls =
      st.visitedCalls ++ [(res.requestURL, (visitUrl w st res).2)] := by
  cases hb : res.body with
  | error e =>
      simp only [visitUrl, hb]
      split <;> simp [reportError]
  | ok bd =>
      cases hp : w.externals.parseHtml bd <;> simp only [visitUrl, hb, hp] <;>
        split <;> simp [reportError]

/-! The claims. -/

/-- C1 (corrected): each processed command that is not the synthetic
robots.txt command hands exactly one `workerResponse` to the coordinator,
except the HEAD-declined-GET path, which hands none; the robots.txt command
itself — contrary to the claim — hands none at all, since `sendResponse`
drops every response whose URL is the robots.txt URL. -/
theorem C1_theorem (w : worker) (st : WState) (cmd : Command) :
    (processCommand w st cmd).pushed.length = st.pushed.length + responsesOf w st cmd := by
  cases hu : isRobotsTxtUrl (some cmd.u) with
  | true => simp [processCommand, hu, responsesOf, requestRobotsTxt_pushed w st hu]
  | false =>
      cases ha : isAllowedPerRobotsPolicies st cmd.u with
      | true =>
          simp [processCommand, hu, ha, responsesOf,
            requestUrl_pushed_len w st cmd.head hu]
      | false => simp [processCommand, hu, ha, responsesOf, sendResponse]

/-- C1 counterexample: a processed robots.txt command (here: the robots hook
asks for a fetch and the transport fails) hands zero `workerResponse`s to the
coordinator, not exactly one. -/
theorem C1_counterexample :
    (processCommand robotsFetchWorker initState ⟨uRob, false⟩).pushed.length ≠ 1 ∧
      (processCommand robotsFetchWorker initState ⟨uRob, false⟩).errors.map
          (fun er => er.kind) = [CrawlErrorKind.CekFetch] := by
  constructor <;> decide

/-- C2 (confirmed): when a command's HEAD fetch succeeds and the
`RequestGet` hook declines, the worker makes no GET request (the only fetch
on record is the HEAD) and hands no `workerResponse` to the coordinator. -/
theorem C2_theorem {u : URL} {res : Response} (w : worker) (st : WState)
    (hr : (w.extender.fetch u w.userAgent true).result = .ok res)
    (hg : w.extender.requestGet res = false) :
    (requestUrl w st u true).pushed = st.pushed ∧
      (requestUrl w st u true).fetchLog.map FetchRec.headRequest =
        st.fetchLog.map FetchRec.headRequest ++ [true] := by
  have hdecl := fetchUrl_head_declined st hr hg
  constructor
  · simp only [requestUrl, hdecl]
    exact fetchOnce_pushed_ok st hr
  · simp only [requestUrl, hdecl]
    exact fetchOnce_log_heads w st u w.userAgent true

/-- C2 witness: a declining worker at `http://h/a`. -/
theorem C2_witness :
    (requestUrl declineWorker initState uA true).pushed = initState.pushed ∧
      (requestUrl declineWorker initState uA true).fetchLog.map FetchRec.headRequest =
        initState.fetchLog.map FetchRec.headRequest ++ [true] :=
  @C2_theorem uA resOK declineWorker initState rfl rfl

/-- C4: at a successful fetch that starts at time 0 and ends at time 5, the
recorded telemetry is `FetchInfo{-5, 200, false, false}` — the duration field
holds `now.Sub(time.Now())`, the negation of the nonnegative elapsed time the
claim (and the surrounding comments) describe. -/
theorem C4_theorem :
    (fetchOnce okWorker initState uA "ua" false).1.lastFetch =
        some ⟨-5, 200, false, false⟩ ∧
      (fetchOnce okWorker initState uA "ua" false).1.fetchLog.map
          (fun r => (r.start, r.endTime)) = [(0, 5)] := by
  constructor <;> decide

/-- C5 (corrected): the select of `run` has no priority — when the stop
signal is ready together with a batch, the scheduler may take the batch (and
here does, pushing a response instead of terminating silently). -/
theorem C5_counterexample :
    resolveSelect failWorker stopBatchStep ≠ some SelBranch.stop ∧
      resolveSelect failWorker stopBatchStep = some SelBranch.batch ∧
      (run failWorker initState [stopBatchStep]).pushed.length = 1 := by
  refine ⟨by decide, by decide, by decide⟩

/-- C5 (corrected): when the stop signal is the only ready event at a wait
pass, the worker terminates at once, leaving the state — in particular the
pushed responses — untouched. -/
theorem C5_theorem (w : worker) (st : WState) (s : SelectStep)
    (rest : List SelectStep) (h1 : s.stopReady = true)
    (h2 : w.idleTTL = 0 ∨ s.idleFired = false) (h3 : s.batch = none) :
    run w st (s :: rest) = st := by
  have hrb : readyBranches w s = [SelBranch.stop] := by
    rcases h2 with h2 | h2 <;> simp [readyBranches, h1, h2, h3]
  simp [run, resolveSelect, hrb, Nat.mod_one]

/-- C5 witness: a stop-only wait pass terminates the worker unchanged. -/
theorem C5_witness : run failWorker initState [stopOnlyStep] = initState :=
  C5_theorem failWorker initState stopOnlyStep [] rfl (Or.inl rfl) rfl

/-- C6 (corrected): a transport-level fetch failure clears the telemetry,
reports a `CekFetch` error, makes exactly the one failed request (no GET) and
is not fatal; it sends a `visited=false` response for the command — except
for the robots.txt fetch, whose response `sendResponse` suppresses. -/
theorem C6_theorem {u : URL} {e : String} (w : worker) (st : WState) (a : String)
    (hd : Bool) (hr : (w.extender.fetch u a hd).result = .error e) :
    (fetchUrl w st u a hd).2 = none ∧
      (fetchUrl w st u a hd).1.lastFetch = none ∧
      (fetchUrl w st u a hd).1.errors = st.errors ++ [⟨.CekFetch, some e, some u⟩] ∧
      (fetchUrl w st u a hd).1.fetchLog.map FetchRec.headRequest =
        st.fetchLog.map FetchRec.headRequest ++ [hd] ∧
      (fetchUrl w st u a hd).1.pushed =
        st.pushed ++
          (if isRobotsTxtUrl (some u) then []
            else [⟨w.host, false, some u, [], false⟩]) := by
  rw [fetchUrl_err st hr]
  exact ⟨rfl, fetchOnce_lastFetch_err st hr, fetchOnce_errors_err st hr,
    fetchOnce_log_heads w st u a hd, fetchOnce_pushed_err st hr⟩

/-- C6 witness: the always-failing transport at `http://h/a`. -/
theorem C6_witness :
    (fetchUrl failWorker initState uA "ua" false).2 = none ∧
      (fetchUrl failWorker initState uA "ua" false).1.lastFetch = none ∧
      (fetchUrl failWorker initState uA "ua" false).1.errors =
        initState.errors ++ [⟨.CekFetch, some "connection refused", some uA⟩] ∧
      (fetchUrl failWorker initState uA "ua" false).1.fetchLog.map
          FetchRec.headRequest =
        initState.fetchLog.map FetchRec.headRequest ++ [false] ∧
      (fetchUrl failWorker initState uA "ua" false).1.pushed =
        initState.pushed ++
          (if isRobotsTxtUrl (some uA) then []
            else [⟨failWorker.host, false, some uA, [], false⟩]) :=
  @C6_theorem uA "connection refused" failWorker initState "ua" false rfl

/-- C6 counterexample: the robots.txt fetch fails at the transport level —
the `CekFetch` error is reported, yet no `workerResponse` (with
`visited=false` or otherwise) reaches the coordinator. -/
theorem C6_counterexample :
    (processCommand robotsFetchWorker initState ⟨uRob, false⟩).pushed = [] ∧
      (fetchUrl robotsFetchWorker initState uRob "rua" false).1.pushed = [] := by
  constructor <;> decide

/-- C7 (confirmed): once the negotiation yields a final response, a 2xx
status runs the visit protocol (`Visited` fires) and the pushed response
carries `visited=true`; any other status reports `CekHttpStatusCode` with the
status text, runs no visit, and still pushes a `visited=false` response. -/
theorem C7_theorem {u : URL} {res : Response} (w : worker) (st : WState) (hd : Bool)
    (hnr : isRobotsTxtUrl (some u) = false)
    (h : (fetchUrl w st u w.userAgent hd).2 = some res) :
    (200 ≤ res.statusCode ∧ res.statusCode < 300 →
      (requestUrl w st u hd).pushed =
        (fetchUrl w st u w.userAgent hd).1.pushed ++
          [⟨w.host, true, some u,
            (visitUrl w (fetchUrl w st u w.userAgent hd).1 res).2, false⟩] ∧
      (requestUrl w st u hd).visitedCalls =
        (fetchUrl w st u w.userAgent hd).1.visitedCalls ++
          [(res.requestURL, (visitUrl w (fetchUrl w st u w.userAgent hd).1 res).2)]) ∧
    (¬(200 ≤ res.statusCode ∧ res.statusCode < 300) →
      (requestUrl w st u hd).pushed =
        (fetchUrl w st u w.userAgent hd).1.pushed ++
          [⟨w.host, false, some u, [], false⟩] ∧
      (requestUrl w st u hd).errors =
        (fetchUrl w st u w.userAgent hd).1.errors ++
          [⟨.CekHttpStatusCode, some res.status, some u⟩] ∧
      (requestUrl w st u hd).visitedCalls =
        (fetchUrl w st u w.userAgent hd).1.visitedCalls) := by
  rcases hfo : fetchUrl w st u w.userAgent hd with ⟨st1, r⟩
  rw [hfo] at h
  simp at h
  subst h
  constructor
  · intro h2
    simp only [requestUrl, hfo]
    rw [if_pos h2]
    simp [sendResponse, hnr, visitUrl_pushed, visitUrl_visitedCalls]
  · intro h2
    simp only [requestUrl, hfo]
    rw [if_neg h2]
    simp [sendResponse, hnr, reportError]

/-- C7 witness: a 404 response is reported and still answered. -/
theorem C7_witness :
    (200 ≤ resBad.statusCode ∧ resBad.statusCode < 300 →
      (requestUrl badStatusWorker initState uA false).pushed =
        (fetchUrl badStatusWorker initState uA badStatusWorker.userAgent false).1.pushed ++
          [⟨badStatusWorker.host, true, some uA,
            (visitUrl badStatusWorker
              (fetchUrl badStatusWorker initState uA badStatusWorker.userAgent
                false).1 resBad).2, false⟩] ∧
      (requestUrl badStatusWorker initState uA false).visitedCalls =
        (fetchUrl badStatusWorker initState uA badStatusWorker.userAgent
            false).1.visitedCalls ++
          [(resBad.requestURL,
            (visitUrl badStatusWorker
              (fetchUrl badStatusWorker initState uA badStatusWorker.userAgent
                false).1 resBad).2)]) ∧
    (¬(200 ≤ resBad.statusCode ∧ resBad.statusCode < 300) →
      (requestUrl badStatusWorker initState uA false).pushed =
        (fetchUrl badStatusWorker initState uA badStatusWorker.userAgent
            false).1.pushed ++
          [⟨badStatusWorker.host, false, some uA, [], false⟩] ∧
      (requestUrl badStatusWorker initState uA false).errors =
        (fetchUrl badStatusWorker initState uA badStatusWorker.userAgent
            false).1.errors ++
          [⟨.CekHttpStatusCode, some resBad.status, some uA⟩] ∧
      (requestUrl badStatusWorker initState uA false).visitedCalls =
        (fetchUrl badStatusWorker initState uA badStatusWorker.userAgent
            false).1.visitedCalls) :=
  @C7_theorem uA resBad badStatusWorker initState false (by decide) rfl

/-- C8 (confirmed): unparsable robots.txt bytes — cached or read from a
fetched response — yield no group (the policy becomes absent) and exactly one
`CekParseRobots` error through the error hook; an absent policy allows every
URL. -/
theorem C8_theorem (w : worker) (st : WState) (b : String) (res : Option Response)
    (h : robotsUnparsable w b res = true) :
    (getRobotsTxtGroup w st b res).2 = none ∧
      (getRobotsTxtGroup w st b res).1.errors.map (fun er => er.kind) =
        st.errors.map (fun er => er.kind) ++ [CrawlErrorKind.CekParseRobots] ∧
      (∀ st2 : WState, st2.robotsGroup = none →
        ∀ v : URL, isAllowedPerRobotsPolicies st2 v = true) := by
  refine ⟨?_, ?_, fun st2 hg v => by simp [isAllowedPerRobotsPolicies, hg]⟩ <;>
    cases res with
    | none =>
        cases hp : w.externals.parseRobots b with
        | error er => simp [getRobotsTxtGroup, hp, reportError]
        | ok data => simp [robotsUnparsable, hp] at h
    | some r =>
        cases hb : r.body with
        | error er => simp [getRobotsTxtGroup, hb, reportError]
        | ok bs =>
            cases hp : w.externals.parseRobots bs with
            | error er => simp [getRobotsTxtGroup, hb, hp, reportError]
            | ok data => simp [robotsUnparsable, hb, hp] at h

/-- C8 witness: cached bytes the robots parser rejects. -/
theorem C8_witness :
    (getRobotsTxtGroup failWorker initState "junk" none).2 = none ∧
      (getRobotsTxtGroup failWorker initState "junk" none).1.errors.map
          (fun er => er.kind) =
        initState.errors.map (fun er => er.kind) ++ [CrawlErrorKind.CekParseRobots] ∧
      (∀ st2 : WState, st2.robotsGroup = none →
        ∀ v : URL, isAllowedPerRobotsPolicies st2 v = true) :=
  C8_theorem failWorker initState "junk" none (by decide)

/-- C9 (confirmed): an anchor href starting with `#` harvests nothing (and
is not logged); `/x` against base `http://h/p` harvests `http://h/x`; an
unparsable href is skipped into the ignored log — `processLinks` reports no
error at all, being a pure computation into `(harvested, ignored)`. -/
theorem C9_theorem (base : URL) (s t : String) (hs : strHasPrefix s "#" = true)
    (ht : urlParse t = none) (ht2 : strHasPrefix t "#" = false)
    (ht3 : 0 < t.length) :
    processLinksAux base [s] = ([], []) ∧
      processLinks ⟨basePg, ["/x"]⟩ = ([⟨"http", "h", "/x", ""⟩], []) ∧
      processLinksAux base [t] = ([], [t]) := by
  refine ⟨?_, by decide, ?_⟩
  · simp [processLinksAux, hs]
  · simp [processLinksAux, ht, ht2, ht3]

/-- C9 witness: `#frag` is skipped, `/x` resolves, `a<TAB>b` is unparsable
and lands in the ignored log. -/
theorem C9_witness :
    processLinksAux basePg ["#frag"] = ([], []) ∧
      processLinks ⟨basePg, ["/x"]⟩ = ([⟨"http", "h", "/x", ""⟩], []) ∧
      processLinksAux basePg ["a\tb"] = ([], ["a\tb"]) :=
  C9_theorem basePg "#frag" "a\tb" (by decide) (by decide) (by decide) (by decide)

/-- C10 (confirmed): a 2xx response with an unreadable body still visits —
the `Visit` hook runs with no document, `Visited` fires, the pushed response
has `visited=true` — while `CekReadBody` (and `CekProcessLinks`, if the hook
asked for auto-harvest) is reported. -/
theorem C10_theorem {u : URL} {res : Response} {e : String} (w : worker)
    (st : WState) (hd : Bool) (hnr : isRobotsTxtUrl (some u) = false)
    (h : (fetchUrl w st u w.userAgent hd).2 = some res)
    (h2 : 200 ≤ res.statusCode ∧ res.statusCode < 300)
    (hb : res.body = .error e) :
    (requestUrl w st u hd).visitCalls =
      (fetchUrl w st u w.userAgent hd).1.visitCalls ++ [false] ∧
      (requestUrl w st u hd).visitedCalls =
        (fetchUrl w st u w.userAgent hd).1.visitedCalls ++
          [(res.requestURL, (w.extender.visit res none).1)] ∧
      (requestUrl w st u hd).pushed =
        (fetchUrl w st u w.userAgent hd).1.pushed ++
          [⟨w.host, true, some u, (w.extender.visit res none).1, false⟩] ∧
      (requestUrl w st u hd).errors =
        (fetchUrl w st u w.userAgent hd).1.errors ++
          [⟨.CekReadBody, some e, some res.requestURL⟩] ++
          (if (w.extender.visit res none).2 then
            [⟨.CekProcessLinks, some "No goquery document to process links.",
              some res.requestURL⟩]
          else []) := by
  rcases hfo : fetchUrl w st u w.userAgent hd with ⟨st1, r⟩
  rw [hfo] at h
  simp at h
  subst h
  have hv := @visitUrl_noBody res e w st1 hb
  simp only [requestUrl, hfo]
  rw [if_pos h2]
  refine ⟨?_, ?_, ?_, ?_⟩ <;>
    simp [sendResponse, hnr, visitUrl_pushed, hv.1, hv.2.1, hv.2.2.1, hv.2.2.2]

/-- C10 witness: a 200 response whose body read fails. -/
theorem C10_witness :
    (requestUrl noBodyWorker initState uA false).visitCalls =
      (fetchUrl noBodyWorker initState uA noBodyWorker.userAgent
          false).1.visitCalls ++ [false] ∧
      (requestUrl noBodyWorker initState uA false).visitedCalls =
        (fetchUrl noBodyWorker initState uA noBodyWorker.userAgent
            false).1.visitedCalls ++
          [(resNoBody.requestURL,
            (noBodyWorker.extender.visit resNoBody none).1)] ∧
      (requestUrl noBodyWorker initState uA false).pushed =
        (fetchUrl noBodyWorker initState uA noBodyWorker.userAgent
            false).1.pushed ++
          [⟨noBodyWorker.host, true, some uA,
            (noBodyWorker.extender.visit resNoBody none).1, false⟩] ∧
      (requestUrl noBodyWorker initState uA false).errors =
        (fetchUrl noBodyWorker initState uA noBodyWorker.userAgent
            false).1.errors ++
          [⟨.CekReadBody, some "read failure", some resNoBody.requestURL⟩] ++
          (if (noBodyWorker.extender.visit resNoBody none).2 then
            [⟨.CekProcessLinks, some "No goquery document to process links.",
              some resNoBody.requestURL⟩]
          else []) :=
  @C10_theorem uA resNoBody "read failure" noBodyWorker initState false (by decide)
    rfl (by decide) rfl

/-! The delay-scheduling invariant (claim C3). -/

theorem consumeWait_wait (st : WState) : (consumeWait st).wait = none := by
  cases h : st.wait <;> simp [consumeWait, h]

theorem sendResponse_fetchLog (w : worker) (st : WState) (u : Option URL) (v : Bool)
    (ha : List URL) (i : Bool) : (sendResponse w st u v ha i).fetchLog = st.fetchLog := by
  unfold sendResponse
  split <;> simp

theorem sendResponse_wait (w : worker) (st : WState) (u : Option URL) (v : Bool)
    (ha : List URL) (i : Bool) : (sendResponse w st u v ha i).wait = st.wait := by
  unfold sendResponse
  split <;> simp

theorem mem_of_getLastEq {α : Type _} : ∀ {l : List α} {a : α},
    l.getLast? = some a → a ∈ l
  | [], _, h => by simp [List.getLast?] at h
  | [b], a, h => by
      simp [List.getLast?] at h
      simp [h]
  | b :: c :: l, a, h => by
      rw [List.getLast?_cons_cons] at h
      exact List.mem_cons_of_mem b (mem_of_getLastEq h)

theorem recGood_fetchRecOf (w : worker) (st : WState) (u : URL) (a : String)
    (hd : Bool) (ok : Bool) : recGood (fetchRecOf w st u a hd ok) := by
  cases ok <;> simp [recGood, fetchRecOf]

theorem wellSpaced_append_one : ∀ (l : List FetchRec) (b : FetchRec),
    wellSpaced l →
    (∀ a, l.getLast? = some a → a.ok = true →
      a.endTime + a.delay ≤ b.start ∧ a.start + a.delay ≤ b.start) →
    wellSpaced (l ++ [b])
  | [], b, _, _ => by simp [wellSpaced]
  | [a], b, _, hlast => by
      refine ⟨fun hok => hlast a (by simp) hok, ?_⟩
      simp [wellSpaced]
  | a :: c :: l, b, hl, hlast =>
      ⟨hl.1,
        wellSpaced_append_one (c :: l) b hl.2 (fun x hx hok =>
          hlast x (by rw [List.getLast?_cons_cons]; exact hx) hok)⟩

/-- On transport failure the appended record is the failed one and no timer
is left pending. -/
theorem fetchOnce_log_err {w : worker} {u : URL} {a : String} {hd : Bool} {e : String}
    (st : WState) (hr : (w.extender.fetch u a hd).result = .error e) :
    (fetchOnce w st u a hd).1.fetchLog =
      st.fetchLog ++ [fetchRecOf w st u a hd false] := by
  cases hw : st.wait <;>
    simp [fetchOnce, fetchRecOf, consumeWait, hw, hr, sendResponse, reportError,
      setCrawlDelay] <;> split <;> simp

theorem fetchOnce_wait_err {w : worker} {u : URL} {a : String} {hd : Bool} {e : String}
    (st : WState) (hr : (w.extender.fetch u a hd).result = .error e) :
    (fetchOnce w st u a hd).1.wait = none := by
  cases hw : st.wait <;>
    simp [fetchOnce, consumeWait, hw, hr, sendResponse, reportError, setCrawlDelay] <;>
    split <;> simp

/-- On success the appended record is the successful one and the timer holds
its deadline: completion time plus the delay computed for this fetch. -/
theorem fetchOnce_log_ok {w : worker} {u : URL} {a : String} {hd : Bool} {res : Response}
    (st : WState) (hr : (w.extender.fetch u a hd).result = .ok res) :
    (fetchOnce w st u a hd).1.fetchLog =
      st.fetchLog ++ [fetchRecOf w st u a hd true] := by
  cases hw : st.wait <;>
    simp [fetchOnce, fetchRecOf, consumeWait, hw, hr, setCrawlDelay]

theorem fetchOnce_wait_ok {w : worker} {u : URL} {a : String} {hd : Bool} {res : Response}
    (st : WState) (hr : (w.extender.fetch u a hd).result = .ok res) :
    (fetchOnce w st u a hd).1.wait =
      some ((fetchRecOf w st u a hd true).endTime + (fetchRecOf w st u a hd true).delay) := by
  cases hw : st.wait <;>
    simp [fetchOnce, fetchRecOf, consumeWait, hw, hr, setCrawlDelay]

/-- `Inv` only reads the fetch log and the pending timer. -/
theorem Inv_frame (st st2 : WState) (hlog : st2.fetchLog = st.fetchLog)
    (hwait : st2.wait = st.wait) (h : Inv st) : Inv st2 := by
  unfold Inv waitInv at h ⊢
  rw [hlog, hwait]
  exact h

/-- One underlying fetch preserves the delay-scheduling invariant. -/
theorem fetchOnce_inv (w : worker) (st : WState) (u : URL) (a : String) (hd : Bool)
    (h : Inv st) : Inv (fetchOnce w st u a hd).1 := by
  obtain ⟨hrg, hws, hwi⟩ := h
  have hko : ∀ aL, st.fetchLog.getLast? = some aL → aL.ok = true →
      aL.endTime + aL.delay ≤ (consumeWait st).now ∧
        aL.start + aL.delay ≤ (consumeWait st).now := by
    intro aL hL hok
    have hw : st.wait = some (aL.endTime + aL.delay) := by
      unfold waitInv at hwi
      rw [hL] at hwi
      rcases hwi with ⟨_, hw⟩ | ⟨hbad, _⟩
      · exact hw
      · rw [hok] at hbad
        cases hbad
    have h1 : aL.endTime + aL.delay ≤ (consumeWait st).now := by
      simp [consumeWait, hw]
    have hrga := hrg aL (mem_of_getLastEq hL)
    have h2 : aL.start ≤ aL.endTime := by
      rw [hrga.1]
      exact Nat.le_add_right _ _
    exact ⟨h1, le_trans (Nat.add_le_add_right h2 _) h1⟩
  have hlast : ∀ (ok : Bool), ∀ aL, st.fetchLog.getLast? = some aL → aL.ok = true →
      aL.endTime + aL.delay ≤ (fetchRecOf w st u a hd ok).start ∧
        aL.start + aL.delay ≤ (fetchRecOf w st u a hd ok).start := by
    intro ok aL hL hok
    simpa [fetchRecOf] using hko aL hL hok
  cases hr : (w.extender.fetch u a hd).result with
  | error e =>
      refine ⟨?_, ?_, ?_⟩
      · rw [fetchOnce_log_err st hr]
        intro r hrm
        rcases List.mem_append.mp hrm with hm | hm
        · exact hrg r hm
        · simp at hm
          subst hm
          exact recGood_fetchRecOf w st u a hd false
      · rw [fetchOnce_log_err st hr]
        exact wellSpaced_append_one _ _ hws (hlast false)
      · unfold waitInv
        rw [fetchOnce_log_err st hr, fetchOnce_wait_err st hr]
        simp [fetchRecOf]
  | ok res =>
      refine ⟨?_, ?_, ?_⟩
      · rw [fetchOnce_log_ok st hr]
        intro r hrm
        rcases List.mem_append.mp hrm with hm | hm
        · exact hrg r hm
        · simp at hm
          subst hm
          exact recGood_fetchRecOf w st u a hd true
      · rw [fetchOnce_log_ok st hr]
        exact wellSpaced_append_one _ _ hws (hlast true)
      · unfold waitInv
        rw [fetchOnce_log_ok st hr, fetchOnce_wait_ok st hr]
        simp [fetchRecOf]

theorem fetchUrl_inv (w : worker) (st : WState) (u : URL) (a : String) (hd : Bool)
    (h : Inv st) : Inv (fetchUrl w st u a hd).1 := by
  rcases hfo : fetchOnce w st u a hd with ⟨st1, r⟩
  have h1 : Inv st1 := by
    have hx := fetchOnce_inv w st u a hd h
    rw [hfo] at hx
    exact hx
  cases r with
  | none => simpa [fetchUrl, hfo] using h1
  | some res =>
      cases hd with
      | false => simpa [fetchUrl, hfo] using h1
      | true =>
          cases hg : w.extender.requestGet res with
          | false => simpa [fetchUrl, hfo, hg] using h1
          | true =>
              have hx := fetchOnce_inv w st1 u a false h1
              simpa [fetchUrl, hfo, hg] using hx

theorem visitUrl_inv (w : worker) (st : WState) (res : Response) (h : Inv st) :
    Inv (visitUrl w st res).1 :=
  Inv_frame st _ (visitUrl_fetchLog w st res) (visitUrl_wait w st res) h

theorem requestUrl_inv (w : worker) (st : WState) (u : URL) (hd : Bool)
    (h : Inv st) : Inv (requestUrl w st u hd) := by
  rcases hfu : fetchUrl w st u w.userAgent hd with ⟨st1, r⟩
  have h1 : Inv st1 := by
    have hx := fetchUrl_inv w st u w.userAgent hd h
    rw [hfu] at hx
    exact hx
  cases r with
  | none => simpa [requestUrl, hfu] using h1
  | some res =>
      refine Inv_frame st1 _ ?_ ?_ h1
      · simp only [requestUrl, hfu]
        rw [sendResponse_fetchLog]
        split <;> simp [visitUrl_fetchLog, reportError]
      · simp only [requestUrl, hfu]
        rw [sendResponse_wait]
        split <;> simp [visitUrl_wait, reportError]

theorem requestRobotsTxt_inv (w : worker) (st : WState) (u : URL) (h : Inv st) :
    Inv (requestRobotsTxt w st u) := by
  rcases hrr : w.extender.requestRobots u w.robotUserAgent with ⟨req, robData⟩
  cases req with
  | false =>
      refine Inv_frame st _ ?_ ?_ h <;> simp only [requestRobotsTxt, hrr]
      · exact getRobotsTxtGroup_fetchLog w st robData none
      · exact getRobotsTxtGroup_wait w st robData none
  | true =>
      rcases hfu : fetchUrl w st u w.robotUserAgent false with ⟨st1, r⟩
      have h1 : Inv st1 := by
        have hx := fetchUrl_inv w st u w.robotUserAgent false h
        rw [hfu] at hx
        exact hx
      cases r with
      | none => simpa [requestRobotsTxt, hrr, hfu] using h1
      | some res =>
          refine Inv_frame st1 _ ?_ ?_ h1 <;> simp only [requestRobotsTxt, hrr, hfu]
          · exact getRobotsTxtGroup_fetchLog w st1 "" (some res)
          · exact getRobotsTxtGroup_wait w st1 "" (some res)

theorem processCommand_inv (w : worker) (st : WState) (cmd : Command) (h : Inv st) :
    Inv (processCommand w st cmd) := by
  unfold processCommand
  split
  · exact requestRobotsTxt_inv w st cmd.u h
  · split
    · exact requestUrl_inv w st cmd.u cmd.head h
    · refine Inv_frame st _ ?_ ?_ h <;>
        simp [sendResponse_fetchLog, sendResponse_wait, sendResponse]
      all_goals split <;> simp

theorem processBatch_inv (w : worker) :
    ∀ (cmds : List Command) (st : WState) (flags : List Bool), Inv st →
      Inv (processBatch w st cmds flags).1
  | [], st, flags, h => h
  | c :: cs, st, flags, h => by
      have h1 := processCommand_inv w st c h
      unfold processBatch
      split
      · exact h1
      · exact processBatch_inv w cs (processCommand w st c) flags.tail h1

theorem run_inv (w : worker) :
    ∀ (script : List SelectStep) (st : WState), Inv st → Inv (run w st script)
  | [], _, h => h
  | s :: rest, st, h => by
      cases hsel : resolveSelect w s with
      | none => simpa [run, hsel] using run_inv w rest st h
      | some br =>
          cases br with
          | stop => simpa [run, hsel] using h
          | idle =>
              have hx : Inv (sendResponse w st none false [] true) :=
                Inv_frame st _ (sendResponse_fetchLog w st none false [] true)
                  (sendResponse_wait w st none false [] true) h
              simpa [run, hsel] using hx
          | batch =>
              have hb := processBatch_inv w (s.batch.getD []) st s.cmdStops h
              by_cases hstop : (processBatch w st (s.batch.getD []) s.cmdStops).2 = true
              · simpa [run, hsel, hstop] using hb
              · have hrun :=
                  run_inv w rest (processBatch w st (s.batch.getD []) s.cmdStops).1 hb
                simpa [run, hsel, hstop] using hrun

/-- The invariant holds of a fresh worker. -/
theorem Inv_initState : Inv initState := by
  refine ⟨?_, ?_, ?_⟩ <;> simp [initState, wellSpaced, waitInv]

/-- C3 (corrected): along any run of the worker, every successful fetch
schedules its crawl-delay timer at its completion time plus the computed
delay (not at its start time plus the delay), and the next underlying fetch
starts no earlier than that deadline — hence, a fortiori, no earlier than the
previous fetch's start plus the delay. -/
theorem C3_theorem (w : worker) (script : List SelectStep) :
    (∀ r ∈ (run w initState script).fetchLog, recGood r) ∧
      wellSpaced (run w initState script).fetchLog := by
  have h := run_inv w script initState Inv_initState
  exact ⟨h.1, h.2.1⟩

/-- C3 counterexample: a fetch of duration 5 under computed delay 2 schedules
its timer for time 7 — completion plus delay — not time 2, start plus delay:
the delay does not overlap the fetch it follows. -/
theorem C3_counterexample :
    ¬ (∀ r ∈ (processCommand okWorker initState ⟨uA, false⟩).fetchLog,
        r.ok = true → r.sched = some (r.start + r.delay)) := by
  decide

/-- C3 witness: a two-command batch under the 5-unit transport and 2-unit
delay satisfies the completion-anchored spacing. -/
theorem C3_witness :
    (∀ r ∈ (run okWorker initState [twoCmdStep]).fetchLog, recGood r) ∧
      wellSpaced (run okWorker initState [twoCmdStep]).fetchLog :=
  C3_theorem okWorker [twoCmdStep]

end gocrawl
